import Mathlib

/-
Verification of the custom differentiable-operator layer of
fbgemm_gpu/src/sparse_ops_gpu.cpp: PackSegments,
LookupFunctionBatchedUnaryEmbeddingOp and IndexSelectDim0GPUOp, together
with the public wrapper index_select_dim0_gpu.

Shallow embedding conventions:
- a tensor participating in device checks is a `Tensor`: a device tag plus
  its dim-0 rows, each row collapsed to one integer (trailing dimensions
  are carried along unchanged by every operation verified here);
- numeric values are `Int` (exact arithmetic stands in for the float
  payload; all verified properties are about which rows are gathered,
  scattered and summed);
- `torch::autograd::variable_list` results of backward become
  `List (Option Tensor)` (or the per-operator payload type), where `none`
  is the default-constructed, undefined Variable, i.e. the no-gradient
  marker;
- TORCH_CHECK failures and the argument-validation macros become
  `Except OpError` / `Option OpError` values;
- CUDA kernels that live in other translation units of the repository are
  modelled from the spec; each such definition carries a doc comment
  saying so.
-/

inductive Device where
  | cpu : Device
  | cuda : Nat → Device
deriving DecidableEq, Repr

def Device.isCuda : Device → Bool
  | Device.cuda _ => true
  | Device.cpu => false

/-- A tensor handle: its device and its dim-0 rows. -/
structure Tensor where
  device : Device
  data : List Int
deriving DecidableEq, Repr

/-- Models a default-constructed (undefined) `at::Tensor` handle. -/
def undefTensor : Tensor := ⟨Device.cpu, []⟩

inductive OpError where
  | invalidArgument : OpError
  | notOnGpu : OpError
  | deviceMismatch : OpError
deriving DecidableEq, Repr

/-- Modelled from the spec: the `TENSOR_ON_CUDA_GPU` validation macro of
`sparse_ops_utils.h` (not under src/): the tensor must reside on a CUDA
device. -/
def TENSOR_ON_CUDA_GPU (t : Tensor) : Option OpError :=
  if t.device.isCuda then none else some OpError.notOnGpu

/-- Modelled from the spec: the `TENSORS_ON_SAME_DEVICE` validation macro of
`sparse_ops_utils.h` (not under src/): cooperating tensors on different
devices are a DeviceMismatch precondition failure. -/
def TENSORS_ON_SAME_DEVICE (a b : Tensor) : Option OpError :=
  if a.device = b.device then none else some OpError.deviceMismatch

/-- Pad a row list with zeros up to length `m`. -/
def padTo (m : Nat) (xs : List Int) : List Int :=
  xs ++ List.replicate (m - xs.length) 0

/-- Modelled from the spec: `pack_segments_forward_cuda` (not under src/):
walk the segments delimited by `lengths`, truncating each to `max_length`
rows and zero-padding shorter ones, producing one dense row list per
segment. -/
def pack_segments_forward_cuda : List Int → List Nat → Nat → List (List Int)
  | _, [], _ => []
  | rest, l :: ls, m =>
      padTo m (rest.take (min l m)) :: pack_segments_forward_cuda (rest.drop l) ls m

/-- Modelled from the spec: `pack_segments_backward_cuda` (not under src/):
un-pad / un-truncate the padded gradient back into the ragged layout of
size `total_length`; rows that were truncated in forward receive zero
gradient. The `total_length` argument mirrors the kernel signature (the
result length equals the sum of `lengths`, which the caller guarantees to
be `total_length`). -/
def pack_segments_backward_cuda : List (List Int) → List Nat → Nat → Nat → List Int
  | _, [], _, _ => []
  | g, l :: ls, total_length, m =>
      ((g.headD []).take l ++ List.replicate (l - min l m) 0)
        ++ pack_segments_backward_cuda (g.drop 1) ls total_length m

/-- The saved state of one `PackSegments` forward call: the tensors stored
by `save_for_backward` and the two scalars stored in `saved_data`. -/
structure PackSegmentsCtx where
  saved_variables : List (List Nat)
  max_length : Nat
  total_length : Nat
deriving DecidableEq, Repr

def PackSegments.forward (t_in : List Int) (lengths : List Nat)
    (max_length : Nat) : List (List (List Int)) × PackSegmentsCtx :=
  let total_length := t_in.length
  let res := pack_segments_forward_cuda t_in lengths max_length
  ([res], ⟨[lengths], max_length, total_length⟩)

def PackSegments.backward (ctx : PackSegmentsCtx)
    (grad_output : List (List (List Int))) :
    Except OpError (List (Option (List Int))) :=
  if grad_output.length = 2 ∨ grad_output.length = 1 then
    let grad := grad_output.headD []
    let lengths := ctx.saved_variables.headD []
    Except.ok [some (pack_segments_backward_cuda grad lengths
        ctx.total_length ctx.max_length), none, none, none, none]
  else Except.error OpError.invalidArgument

def pack_segments_cuda (t_in : List Int) (lengths : List Nat)
    (max_length : Nat) : List (List Int) :=
  (PackSegments.forward t_in lengths max_length).1.headD []

/-- Scatter-add: fold the (position, value) pairs into an all-zero buffer
of length `n`, accumulating by addition at each position. -/
def scatterAdd (n : Nat) (ps : List (Nat × Int)) : List Int :=
  ps.foldl (fun out p => out.set p.1 (out.getD p.1 0 + p.2)) (List.replicate n 0)

def numTables (table_offsets : List Int) : Nat := table_offsets.length - 1

/-- Modelled from the spec: the weight position a flattened
(sample, table) output element `k` reads from: the start of its table in
`weight` plus the index selected for it through `offsets`/`indices`. -/
def unaryWeightPos (table_offsets offsets indices : List Int) (k : Nat) : Nat :=
  ((table_offsets.getD (k % numTables table_offsets) 0)
     + indices.getD ((offsets.getD k 0).toNat) 0).toNat

/-- Modelled from the spec: `batched_unary_embeddings_forward_cuda` (not
under src/): each sample selects exactly one scalar embedding value per
table. -/
def batched_unary_embeddings_forward_cuda
    (weight table_offsets offsets indices : List Int) : List Int :=
  (List.range (offsets.length - 1)).map
    (fun k => weight.getD (unaryWeightPos table_offsets offsets indices k) 0)

/-- Modelled from the spec: `batched_unary_embeddings_backward_cuda` (not
under src/): scatter-add the output gradients back onto the weight
positions implied by `table_offsets`, `offsets`, `indices`. -/
def batched_unary_embeddings_backward_cuda
    (grad weight table_offsets offsets indices : List Int) : List Int :=
  scatterAdd weight.length
    ((List.range (offsets.length - 1)).map
      (fun k => (unaryWeightPos table_offsets offsets indices k, grad.getD k 0)))

/-- The saved state of one BatchedUnaryEmbedding forward call: the four
input tensors, saved verbatim in order. -/
structure BatchedUnaryCtx where
  saved_variables : List (List Int)
deriving DecidableEq, Repr

def LookupFunctionBatchedUnaryEmbeddingOp.forward
    (weight table_offsets offsets indices : List Int) :
    List (List Int) × BatchedUnaryCtx :=
  ([batched_unary_embeddings_forward_cuda weight table_offsets offsets indices],
   ⟨[weight, table_offsets, offsets, indices]⟩)

def LookupFunctionBatchedUnaryEmbeddingOp.backward (ctx : BatchedUnaryCtx)
    (grad_outputs : List (List Int)) :
    Except OpError (List (Option (List Int))) :=
  match grad_outputs with
  | [g] =>
    let weight := ctx.saved_variables.headD []
    let table_offsets := (ctx.saved_variables.drop 1).headD []
    let offsets := (ctx.saved_variables.drop 2).headD []
    let indices := (ctx.saved_variables.drop 3).headD []
    Except.ok [some (batched_unary_embeddings_backward_cuda g weight
        table_offsets offsets indices), none, none, none]
  | _ => Except.error OpError.invalidArgument

def lookup_batched_unary_embedding_function
    (weight table_offsets offsets indices : List Int) : List Int :=
  (LookupFunctionBatchedUnaryEmbeddingOp.forward
      weight table_offsets offsets indices).1.headD []

/-- Pair each element with its position, starting at position `s`. -/
def idxFrom (s : Nat) : List Int → List (Nat × Int)
  | [] => []
  | a :: l => (s, a) :: idxFrom (s + 1) l

/-- Pair each element with its position. -/
def idx (l : List Int) : List (Nat × Int) := idxFrom 0 l

/-- Insert a (position, value) pair into a value-sorted pair list. -/
def insertSortedPair (p : Nat × Int) : List (Nat × Int) → List (Nat × Int)
  | [] => [p]
  | q :: t => if p.2 ≤ q.2 then p :: q :: t else q :: insertSortedPair p t

/-- Insertion sort of (position, value) pairs by value. -/
def sortPairs : List (Nat × Int) → List (Nat × Int)
  | [] => []
  | p :: t => insertSortedPair p (sortPairs t)

/-- Modelled from the spec: `Tensor.sort` (ATen, not under src/), producing
the SortedIndexPermutation of the spec: the values sorted ascending
together with, per sorted slot, the original position that produced it. -/
def Tensor.sort (t : Tensor) : Tensor × Tensor :=
  let sp := sortPairs (idx t.data)
  (⟨t.device, sp.map (fun p => p.2)⟩,
   ⟨t.device, sp.map (fun p => (p.1 : Int))⟩)

/-- Scatter: fold the (position, row) pairs into an all-zero buffer of
length `n`, each write replacing the previous content of its slot. -/
def scatterRows (n : Nat) (ps : List (Nat × Int)) : List Int :=
  ps.foldl (fun out p => out.set p.1 p.2) (List.replicate n 0)

/-- Modelled from the spec: `index_select_cuda` (not under src/). With
`indices_sorted = true` it receives the ascending-sorted indices together
with their original positions and writes row `input[sorted_indices[j]]` to
output position `orig_indices[j]`; with `indices_sorted = false` it
gathers directly: output row `i` is `input[indices[i]]`. Either way the
output has one row per index. -/
def index_select_cuda (input indices orig_indices : Tensor)
    (indices_sorted : Bool) : Tensor :=
  if indices_sorted then
    ⟨input.device,
     scatterRows indices.data.length
       ((orig_indices.data.map Int.toNat).zip
         (indices.data.map (fun v => input.data.getD v.toNat 0)))⟩
  else
    ⟨input.device, indices.data.map (fun v => input.data.getD v.toNat 0)⟩

/-- Modelled from the spec: `index_add_with_unique_indices_cuda` (not under
src/). Scatter-add each gradient row `grad_output[orig_indices[j]]` into
row `sorted_indices[j]` of a zero tensor of the input shape; duplicates
accumulate by summation. A positive `consecutive_range_length` selects the
faster accumulation path for indices the caller guarantees to lie in
`[consecutive_range_start, consecutive_range_start +
consecutive_range_length)`: each row of that window sums the gradient rows
of its occurrences directly, rows outside the window stay zero. -/
def index_add_with_unique_indices_cuda (grad_output sorted_indices orig_indices : Tensor)
    (input_shape : Nat) (consecutive_range_start consecutive_range_length : Int) : Tensor :=
  let ps := sorted_indices.data.zip orig_indices.data
  if 0 < consecutive_range_length then
    ⟨grad_output.device,
     (List.range input_shape).map (fun (k : Nat) =>
       if consecutive_range_start ≤ (k : Int) ∧
          (k : Int) < consecutive_range_start + consecutive_range_length then
         ((ps.filter (fun p => p.1.toNat == k)).map
           (fun p => grad_output.data.getD p.2.toNat 0)).sum
       else 0)⟩
  else
    ⟨grad_output.device,
     scatterAdd input_shape
       (ps.map (fun p => (p.1.toNat, grad_output.data.getD p.2.toNat 0)))⟩

/-- The saved state of one `IndexSelectDim0GPUOp` forward call: the tensors
stored by `save_for_backward` and the four scalars stored in `saved_data`. -/
structure IndexSelectCtx where
  saved_variables : List Tensor
  input_shape : Nat
  consecutive_range_start : Int
  consecutive_range_length : Int
  skip_indices_sorting_fwd : Bool
deriving DecidableEq, Repr

def IndexSelectDim0GPUOp.forward (input indices : Tensor)
    (consecutive_range_start consecutive_range_length : Int)
    (skip_indices_sorting_fwd : Bool) :
    Except OpError (List Tensor × IndexSelectCtx) :=
  match TENSOR_ON_CUDA_GPU input with
  | some e => Except.error e
  | none =>
  match TENSOR_ON_CUDA_GPU indices with
  | some e => Except.error e
  | none =>
  match TENSORS_ON_SAME_DEVICE input indices with
  | some e => Except.error e
  | none =>
    if skip_indices_sorting_fwd then
      Except.ok ([index_select_cuda input indices undefTensor false],
        ⟨[indices], input.data.length, consecutive_range_start,
         consecutive_range_length, skip_indices_sorting_fwd⟩)
    else
      let sorted_indices := (Tensor.sort indices).1
      let orig_indices := (Tensor.sort indices).2
      Except.ok ([index_select_cuda input sorted_indices orig_indices true],
        ⟨[sorted_indices, orig_indices], input.data.length,
         consecutive_range_start, consecutive_range_length,
         skip_indices_sorting_fwd⟩)

def IndexSelectDim0GPUOp.backward (ctx : IndexSelectCtx)
    (grad_outputs : List Tensor) : Except OpError (List (Option Tensor)) :=
  match grad_outputs with
  | [grad_output0] =>
    match TENSOR_ON_CUDA_GPU grad_output0 with
    | some e => Except.error e
    | none =>
      let pair :=
        if ctx.skip_indices_sorting_fwd then
          Tensor.sort (ctx.saved_variables.headD undefTensor)
        else
          (ctx.saved_variables.headD undefTensor,
           (ctx.saved_variables.drop 1).headD undefTensor)
      match TENSOR_ON_CUDA_GPU pair.1 with
      | some e => Except.error e
      | none =>
      match TENSOR_ON_CUDA_GPU pair.2 with
      | some e => Except.error e
      | none =>
      match TENSORS_ON_SAME_DEVICE grad_output0 pair.1 with
      | some e => Except.error e
      | none =>
        Except.ok [some (index_add_with_unique_indices_cuda grad_output0
            pair.1 pair.2 ctx.input_shape ctx.consecutive_range_start
            ctx.consecutive_range_length), none, none, none, none]
  | _ => Except.error OpError.invalidArgument

/-- The public wrapper. `c10::InferenceMode::is_enabled()` is global state,
modelled as the explicit argument `inference_mode_enabled`. The C++
function returns only output 0 of `apply`; `apply` also hands the freshly
populated context to the engine, so the context is returned alongside to
keep the saved state observable. -/
def index_select_dim0_gpu (input indices : Tensor)
    (consecutive_range_start consecutive_range_length : Option Int)
    (skip_indices_sorting_fwd : Option Bool)
    (inference_mode_enabled : Bool) :
    Except OpError (Tensor × IndexSelectCtx) :=
  let user_skip_indices_sorting_fwd :=
    match skip_indices_sorting_fwd with
    | some b => b
    | none => false
  (IndexSelectDim0GPUOp.forward input indices
      (match consecutive_range_start with | some v => v | none => 0)
      (match consecutive_range_length with | some v => v | none => 0)
      (user_skip_indices_sorting_fwd && !inference_mode_enabled)).map
    (fun r => (r.1.headD undefTensor, r.2))

theorem map_fst_idxFrom (l : List Int) : ∀ s : Nat,
    (idxFrom s l).map Prod.fst = List.range' s l.length := by
  induction l with
  | nil => intro s; rfl
  | cons a t ih =>
      intro s
      simp [idxFrom, List.range'_succ, ih]

theorem map_snd_idxFrom (l : List Int) : ∀ s : Nat,
    (idxFrom s l).map Prod.snd = l := by
  induction l with
  | nil => intro s; rfl
  | cons a t ih => intro s; simp [idxFrom, ih]

theorem mem_idxFrom (l : List Int) : ∀ (s : Nat) (p : Nat × Int),
    p ∈ idxFrom s l → ∃ j, j < l.length ∧ p.1 = s + j ∧ p.2 = l.getD j 0 := by
  induction l with
  | nil => intro s p h; simp [idxFrom] at h
  | cons a t ih =>
      intro s p h
      have h2 : p = (s, a) ∨ p ∈ idxFrom (s + 1) t := List.mem_cons.mp h
      rcases h2 with h2 | h2
      · subst h2
        exact ⟨0, by simp, by simp, by simp⟩
      · rcases ih (s + 1) p h2 with ⟨j, hj, hj1, hj2⟩
        refine ⟨j + 1, by simpa using Nat.succ_lt_succ hj, by omega, ?_⟩
        simpa [List.getD_cons_succ] using hj2

theorem mem_idx (l : List Int) (p : Nat × Int) (h : p ∈ idx l) :
    p.1 < l.length ∧ p.2 = l.getD p.1 0 := by
  rcases mem_idxFrom l 0 p h with ⟨j, hj, h1, h2⟩
  constructor
  · omega
  · rw [h2]; congr 1; omega

theorem idxFrom_mem (l : List Int) : ∀ (s j : Nat), j < l.length →
    (s + j, l.getD j 0) ∈ idxFrom s l := by
  induction l with
  | nil => intro s j h; simp at h
  | cons a t ih =>
      intro s j h
      cases j with
      | zero => simp [idxFrom, List.getD]
      | succ j =>
          have := ih (s + 1) j (by simpa using h)
          refine List.mem_cons_of_mem _ ?_
          simpa [List.getD, Nat.add_assoc, Nat.add_comm 1 j] using this

theorem idx_mem (l : List Int) (i : Nat) (h : i < l.length) :
    (i, l.getD i 0) ∈ idx l := by
  simpa using idxFrom_mem l 0 i h

theorem insertSortedPair_perm (p : Nat × Int) (l : List (Nat × Int)) :
    (insertSortedPair p l).Perm (p :: l) := by
  induction l with
  | nil => simp [insertSortedPair]
  | cons q t ih =>
      by_cases h : p.2 ≤ q.2
      · simp [insertSortedPair, h]
      · simp only [insertSortedPair, if_neg h]
        exact ((ih.cons q).trans (List.Perm.swap p q t))

theorem sortPairs_perm (l : List (Nat × Int)) : (sortPairs l).Perm l := by
  induction l with
  | nil => simp [sortPairs]
  | cons p t ih =>
      exact (insertSortedPair_perm p (sortPairs t)).trans (ih.cons p)

theorem getD_set_self (l : List Int) (i : Nat) (a d : Int) (h : i < l.length) :
    (l.set i a).getD i d = a := by
  rw [List.getD_eq_getElem _ _ (by simpa using h)]
  exact List.getElem_set_self _

theorem getD_set_ne (l : List Int) (i j : Nat) (a d : Int) (h : i ≠ j) :
    (l.set i a).getD j d = l.getD j d := by
  by_cases hj : j < l.length
  · rw [List.getD_eq_getElem _ _ (by simpa using hj), List.getD_eq_getElem _ _ hj]
    exact List.getElem_set_ne h _
  · rw [List.getD_eq_getElem?_getD, List.getD_eq_getElem?_getD]
    rw [List.getElem?_eq_none (by simpa using hj), List.getElem?_eq_none (by omega)]

theorem getD_replicate_zero (n i : Nat) (d : Int) (h : i < n) :
    (List.replicate n (0 : Int)).getD i d = 0 := by
  rw [List.getD_eq_getElem _ _ (by simpa using h)]
  simp

theorem length_foldl_set (ps : List (Nat × Int)) : ∀ init : List Int,
    (ps.foldl (fun out p => out.set p.1 p.2) init).length = init.length := by
  induction ps with
  | nil => intro init; rfl
  | cons p t ih =>
      intro init
      simpa [List.foldl_cons] using ih (init.set p.1 p.2)

theorem getD_foldl_set_not_mem (ps : List (Nat × Int)) :
    ∀ (init : List Int) (i : Nat) (d : Int), i ∉ ps.map Prod.fst →
    (ps.foldl (fun out p => out.set p.1 p.2) init).getD i d = init.getD i d := by
  induction ps with
  | nil => intro init i d _; rfl
  | cons p t ih =>
      intro init i d h
      have h1 : p.1 ≠ i := by
        intro he; exact h (by simp [he.symm])
      have h2 : i ∉ t.map Prod.fst := by
        intro he; exact h (by simp [he])
      rw [List.foldl_cons, ih _ i d h2, getD_set_ne _ _ _ _ _ h1]

theorem getD_foldl_set_mem (ps : List (Nat × Int)) :
    ∀ (init : List Int) (i : Nat) (v d : Int), (ps.map Prod.fst).Nodup →
    (i, v) ∈ ps → i < init.length →
    (ps.foldl (fun out p => out.set p.1 p.2) init).getD i d = v := by
  induction ps with
  | nil => intro init i v d _ hm _; simp at hm
  | cons p t ih =>
      intro init i v d hnd hm hlen
      rw [List.map_cons] at hnd
      have hnd1 : p.1 ∉ t.map Prod.fst := (List.nodup_cons.mp hnd).1
      have hnd2 : (t.map Prod.fst).Nodup := (List.nodup_cons.mp hnd).2
      rcases List.mem_cons.mp hm with hm | hm
      · have hi : p.1 = i := by rw [← hm]
        have hv : p.2 = v := by rw [← hm]
        rw [List.foldl_cons,
          getD_foldl_set_not_mem t _ i d (by rw [← hi]; exact hnd1)]
        rw [hi, hv]
        exact getD_set_self init i v d hlen
      · rw [List.foldl_cons]
        exact ih _ i v d hnd2 hm (by simpa using hlen)

theorem length_foldl_add (ps : List (Nat × Int)) : ∀ init : List Int,
    (ps.foldl (fun out p => out.set p.1 (out.getD p.1 0 + p.2)) init).length
      = init.length := by
  induction ps with
  | nil => intro init; rfl
  | cons p t ih =>
      intro init
      simpa [List.foldl_cons] using ih (init.set p.1 (init.getD p.1 0 + p.2))

theorem getD_foldl_add (ps : List (Nat × Int)) : ∀ (init : List Int) (k : Nat),
    k < init.length →
    (ps.foldl (fun out p => out.set p.1 (out.getD p.1 0 + p.2)) init).getD k 0
      = init.getD k 0 + ((ps.filter (fun p => p.1 == k)).map Prod.snd).sum := by
  induction ps with
  | nil => intro init k _; simp
  | cons p t ih =>
      intro init k hk
      by_cases hpk : p.1 = k
      · rw [List.foldl_cons,
          ih (init.set p.1 (init.getD p.1 0 + p.2)) k (by simpa using hk)]
        rw [hpk, getD_set_self _ _ _ _ hk]
        simp [List.filter_cons, hpk, add_assoc]
      · rw [List.foldl_cons,
          ih (init.set p.1 (init.getD p.1 0 + p.2)) k (by simpa using hk)]
        rw [getD_set_ne _ _ _ _ _ hpk]
        simp [List.filter_cons, hpk]

theorem length_scatterAdd (n : Nat) (ps : List (Nat × Int)) :
    (scatterAdd n ps).length = n := by
  unfold scatterAdd
  rw [length_foldl_add]
  exact List.length_replicate n 0

theorem getD_scatterAdd (n : Nat) (ps : List (Nat × Int)) (k : Nat) (h : k < n) :
    (scatterAdd n ps).getD k 0
      = ((ps.filter (fun p => p.1 == k)).map Prod.snd).sum := by
  unfold scatterAdd
  rw [getD_foldl_add ps _ k (by simpa using h), getD_replicate_zero n k 0 h,
    zero_add]

theorem length_scatterRows (n : Nat) (ps : List (Nat × Int)) :
    (scatterRows n ps).length = n := by
  unfold scatterRows
  rw [length_foldl_set]
  exact List.length_replicate n 0

theorem length_idx (l : List Int) : (idx l).length = l.length := by
  have h := congrArg List.length (map_snd_idxFrom l 0)
  simpa using h

theorem sortPairs_idx_length (l : List Int) :
    (sortPairs (idx l)).length = l.length := by
  rw [(sortPairs_perm (idx l)).length_eq, length_idx]

theorem sp_fst_perm_range (l : List Int) :
    ((sortPairs (idx l)).map Prod.fst).Perm (List.range l.length) := by
  have h := (sortPairs_perm (idx l)).map Prod.fst
  rw [List.range_eq_range']
  have h2 : (idx l).map Prod.fst = List.range' 0 l.length := map_fst_idxFrom l 0
  rw [h2] at h
  exact h

theorem sp_fst_nodup (l : List Int) :
    ((sortPairs (idx l)).map Prod.fst).Nodup :=
  (sp_fst_perm_range l).nodup_iff.mpr (by rw [List.range_eq_range']; exact List.nodup_range' 0 l.length)

theorem mem_sp_of_lt (l : List Int) (i : Nat) (h : i < l.length) :
    (i, l.getD i 0) ∈ sortPairs (idx l) :=
  (sortPairs_perm (idx l)).mem_iff.mpr (idx_mem l i h)

theorem mem_sp (l : List Int) (p : Nat × Int) (h : p ∈ sortPairs (idx l)) :
    p.1 < l.length ∧ p.2 = l.getD p.1 0 :=
  mem_idx l p ((sortPairs_perm (idx l)).mem_iff.mp h)

theorem sp_snd_perm (l : List Int) :
    ((sortPairs (idx l)).map Prod.snd).Perm l := by
  have h := (sortPairs_perm (idx l)).map Prod.snd
  rw [show (idx l).map Prod.snd = l from map_snd_idxFrom l 0] at h
  exact h

theorem scatterRows_gather (l : List Int) (f : Int → Int) (n : Nat)
    (hn : n = l.length) :
    scatterRows n ((sortPairs (idx l)).map (fun p => (p.1, f p.2)))
      = l.map f := by
  apply List.ext_getElem
  · rw [length_scatterRows, List.length_map, hn]
  · intro i h1 h2
    have hi : i < l.length := by
      simpa using h2
    have hmem : (i, f (l.getD i 0)) ∈
        (sortPairs (idx l)).map (fun p => (p.1, f p.2)) :=
      List.mem_map.mpr ⟨(i, l.getD i 0), mem_sp_of_lt l i hi, rfl⟩
    have hnd : (((sortPairs (idx l)).map (fun p => (p.1, f p.2))).map
        Prod.fst).Nodup := by
      rw [List.map_map]
      exact sp_fst_nodup l
    have hlen : i < (List.replicate n (0 : Int)).length := by
      rw [List.length_replicate]; omega
    have hval := getD_foldl_set_mem _ (List.replicate n (0 : Int))
      i (f (l.getD i 0)) 0 hnd hmem hlen
    have hL : (scatterRows n ((sortPairs (idx l)).map (fun p => (p.1, f p.2)))).getD i 0
        = f (l.getD i 0) := hval
    rw [List.getD_eq_getElem _ _ h1] at hL
    rw [hL, List.getElem_map, List.getD_eq_getElem l 0 hi]

theorem sort_fst_device (t : Tensor) : (Tensor.sort t).1.device = t.device := rfl

theorem sort_snd_device (t : Tensor) : (Tensor.sort t).2.device = t.device := rfl

theorem sort_fst_data (t : Tensor) :
    (Tensor.sort t).1.data = (sortPairs (idx t.data)).map (fun p => p.2) := rfl

theorem sort_snd_data (t : Tensor) :
    (Tensor.sort t).2.data
      = (sortPairs (idx t.data)).map (fun p => (p.1 : Int)) := rfl

theorem index_select_sorted_eval (input indices : Tensor) :
    index_select_cuda input (Tensor.sort indices).1 (Tensor.sort indices).2 true
      = ⟨input.device, indices.data.map (fun v => input.data.getD v.toNat 0)⟩ := by
  have h1 : (Int.toNat ∘ fun p : Nat × Int => (p.1 : Int))
      = fun p : Nat × Int => p.1 := by
    funext p; simp
  have h2 : ((fun v => input.data.getD v.toNat 0) ∘ fun p : Nat × Int => p.2)
      = fun p : Nat × Int => input.data.getD p.2.toNat 0 := rfl
  have hlen : ((sortPairs (idx indices.data)).map (fun p : Nat × Int => p.2)).length
      = indices.data.length := by
    rw [List.length_map, sortPairs_idx_length]
  show Tensor.mk input.device _ = Tensor.mk input.device _
  congr 1
  rw [sort_fst_data, sort_snd_data, List.map_map, List.map_map, h1, h2,
    List.zip_map', hlen]
  exact scatterRows_gather indices.data (fun v => input.data.getD v.toNat 0)
    indices.data.length rfl

theorem index_select_unsorted_eval (input indices : Tensor) :
    index_select_cuda input indices undefTensor false
      = ⟨input.device, indices.data.map (fun v => input.data.getD v.toNat 0)⟩ := rfl

theorem forward_eval (input indices : Tensor) (cs cl : Int) (sk : Bool)
    (hc : input.device.isCuda = true) (hd : indices.device = input.device) :
    IndexSelectDim0GPUOp.forward input indices cs cl sk
      = Except.ok
          ([⟨input.device, indices.data.map (fun v => input.data.getD v.toNat 0)⟩],
           if sk then
             ⟨[indices], input.data.length, cs, cl, sk⟩
           else
             ⟨[(Tensor.sort indices).1, (Tensor.sort indices).2],
              input.data.length, cs, cl, sk⟩) := by
  have hic : indices.device.isCuda = true := by rw [hd]; exact hc
  unfold IndexSelectDim0GPUOp.forward TENSOR_ON_CUDA_GPU TENSORS_ON_SAME_DEVICE
  rw [hc, hic, hd]
  simp only [if_true, if_pos rfl]
  cases sk with
  | true => rw [index_select_unsorted_eval]; simp
  | false => rw [index_select_sorted_eval]; simp

theorem backward_eval (input indices grad : Tensor) (cs cl : Int) (sk : Bool)
    (outs : List Tensor) (ctx : IndexSelectCtx)
    (hc : input.device.isCuda = true) (hd : indices.device = input.device)
    (hg : grad.device = input.device)
    (hfwd : IndexSelectDim0GPUOp.forward input indices cs cl sk
      = Except.ok (outs, ctx)) :
    IndexSelectDim0GPUOp.backward ctx [grad]
      = Except.ok [some (index_add_with_unique_indices_cuda grad
          (Tensor.sort indices).1 (Tensor.sort indices).2
          input.data.length cs cl), none, none, none, none] := by
  rw [forward_eval input indices cs cl sk hc hd] at hfwd
  have hpair := Except.ok.inj hfwd
  have hctx : ctx = if sk then
      (⟨[indices], input.data.length, cs, cl, sk⟩ : IndexSelectCtx)
    else
      ⟨[(Tensor.sort indices).1, (Tensor.sort indices).2],
       input.data.length, cs, cl, sk⟩ := by
    have := congrArg Prod.snd hpair
    simpa using this.symm
  have hgc : grad.device.isCuda = true := by rw [hg]; exact hc
  have hic : indices.device.isCuda = true := by rw [hd]; exact hc
  cases sk with
  | true =>
      rw [if_pos rfl] at hctx
      subst hctx
      simp only [IndexSelectDim0GPUOp.backward, TENSOR_ON_CUDA_GPU,
        TENSORS_ON_SAME_DEVICE, List.headD, sort_fst_device, sort_snd_device,
        hgc, hic, hg, hd, if_true, if_pos rfl]
      simp [hc]
  | false =>
      rw [if_neg (by simp)] at hctx
      subst hctx
      simp only [IndexSelectDim0GPUOp.backward, TENSOR_ON_CUDA_GPU,
        TENSORS_ON_SAME_DEVICE, List.headD, List.drop, sort_fst_device,
        sort_snd_device, hgc, hic, hg, hd, if_true, if_pos rfl]
      simp [hc, sort_fst_device, sort_snd_device, hd]

theorem scatter_branch_getD (grad sortedT origT : Tensor) (n k : Nat)
    (hk : k < n) :
    (scatterAdd n ((sortedT.data.zip origT.data).map
        (fun p => (p.1.toNat, grad.data.getD p.2.toNat 0)))).getD k 0
      = (((sortedT.data.zip origT.data).filter (fun p => p.1.toNat == k)).map
          (fun p => grad.data.getD p.2.toNat 0)).sum := by
  rw [getD_scatterAdd _ _ k hk, List.filter_map, List.map_map]
  rfl

theorem index_add_scatter_data (grad s o : Tensor) (n : Nat) (cs cl : Int)
    (hcl : ¬ 0 < cl) :
    (index_add_with_unique_indices_cuda grad s o n cs cl).data
      = scatterAdd n ((s.data.zip o.data).map
          (fun p => (p.1.toNat, grad.data.getD p.2.toNat 0))) := by
  unfold index_add_with_unique_indices_cuda
  rw [if_neg hcl]

theorem index_add_fast_data (grad s o : Tensor) (n : Nat) (cs cl : Int)
    (hcl : 0 < cl) :
    (index_add_with_unique_indices_cuda grad s o n cs cl).data
      = (List.range n).map (fun (k : Nat) =>
          if cs ≤ (k : Int) ∧ (k : Int) < cs + cl then
            (((s.data.zip o.data).filter (fun p => p.1.toNat == k)).map
              (fun p => grad.data.getD p.2.toNat 0)).sum
          else 0) := by
  unfold index_add_with_unique_indices_cuda
  rw [if_pos hcl]

theorem index_add_scatter_eval (grad indices : Tensor) (n : Nat)
    (cs cl : Int) (hcl : ¬ 0 < cl) (k : Nat) (hk : k < n) :
    (index_add_with_unique_indices_cuda grad (Tensor.sort indices).1
        (Tensor.sort indices).2 n cs cl).data.getD k 0
      = (((idx indices.data).filter (fun p => p.2.toNat == k)).map
          (fun p => grad.data.getD p.1 0)).sum := by
  rw [index_add_scatter_data grad _ _ n cs cl hcl]
  rw [sort_fst_data, sort_snd_data, List.zip_map', List.map_map]
  have hF : ((fun p : Int × Int => (p.1.toNat, grad.data.getD p.2.toNat 0)) ∘
      fun p : Nat × Int => (p.2, (p.1 : Int)))
      = fun p : Nat × Int => (p.2.toNat, grad.data.getD p.1 0) := by
    funext p; simp
  rw [hF, getD_scatterAdd _ _ k hk]
  have hperm := ((sortPairs_perm (idx indices.data)).map
      (fun p : Nat × Int => (p.2.toNat, grad.data.getD p.1 0))).filter
      (fun q : Nat × Int => q.1 == k)
  rw [(hperm.map Prod.snd).sum_eq, List.filter_map, List.map_map]
  rfl

theorem index_add_length (grad s o : Tensor) (n : Nat) (cs cl : Int) :
    (index_add_with_unique_indices_cuda grad s o n cs cl).data.length = n := by
  by_cases hcl : 0 < cl
  · rw [index_add_fast_data grad s o n cs cl hcl, List.length_map,
      List.length_range]
  · rw [index_add_scatter_data grad s o n cs cl hcl]
    exact length_scatterAdd n _

theorem Tensor.eq_of_parts (a b : Tensor) (h1 : a.device = b.device)
    (h2 : a.data = b.data) : a = b := by
  cases a; cases b
  simp only at h1 h2
  rw [h1, h2]

theorem sorted_data_perm (t : Tensor) :
    ((Tensor.sort t).1.data).Perm t.data := by
  rw [sort_fst_data]; exact sp_snd_perm t.data

theorem index_add_device (grad s o : Tensor) (n : Nat) (cs cl : Int) :
    (index_add_with_unique_indices_cuda grad s o n cs cl).device
      = grad.device := by
  unfold index_add_with_unique_indices_cuda
  by_cases hcl : 0 < cl
  · rw [if_pos hcl]
  · rw [if_neg hcl]

theorem index_add_hint_invariance (grad indices : Tensor) (n : Nat)
    (cs cl : Int) (hcl : 0 < cl)
    (hnn : ∀ v ∈ indices.data, 0 ≤ v)
    (hrange : ∀ v ∈ indices.data, cs ≤ v ∧ v < cs + cl) :
    index_add_with_unique_indices_cuda grad (Tensor.sort indices).1
        (Tensor.sort indices).2 n cs cl
      = index_add_with_unique_indices_cuda grad (Tensor.sort indices).1
          (Tensor.sort indices).2 n 0 0 := by
  apply Tensor.eq_of_parts
  · rw [index_add_device, index_add_device]
  · rw [index_add_fast_data _ _ _ n cs cl hcl,
      index_add_scatter_data _ _ _ n 0 0 (by norm_num)]
    apply List.ext_getElem
    · rw [List.length_map, List.length_range, length_scatterAdd]
    · intro k h1 h2
      have hk : k < n := by
        rw [List.length_map, List.length_range] at h1
        exact h1
      have hscat : (scatterAdd n
          ((((Tensor.sort indices).1.data.zip (Tensor.sort indices).2.data)).map
            (fun p => (p.1.toNat, grad.data.getD p.2.toNat 0)))).getD k 0
          = ((((Tensor.sort indices).1.data.zip
              (Tensor.sort indices).2.data).filter
              (fun p => p.1.toNat == k)).map
              (fun p => grad.data.getD p.2.toNat 0)).sum :=
        scatter_branch_getD grad _ _ n k hk
      rw [List.getElem_map, List.getElem_range,
        ← List.getD_eq_getElem _ 0 h2, hscat]
      by_cases hw : cs ≤ (k : Int) ∧ (k : Int) < cs + cl
      · rw [if_pos hw]
      · rw [if_neg hw]
        have hnil : ((Tensor.sort indices).1.data.zip
            (Tensor.sort indices).2.data).filter (fun p => p.1.toNat == k)
            = [] := by
          apply List.filter_eq_nil_iff.mpr
          intro p hp hbeq
          have hmem : p.1 ∈ indices.data :=
            (sorted_data_perm indices).mem_iff.mp (List.of_mem_zip hp).1
          have hk1 : p.1.toNat = k := by simpa using hbeq
          have h0 : (0 : Int) ≤ p.1 := hnn p.1 hmem
          have hr := hrange p.1 hmem
          have hcast : ((p.1.toNat : Nat) : Int) = p.1 := Int.toNat_of_nonneg h0
          rw [hk1] at hcast
          exact hw (by rw [← hcast] at hr; exact hr)
        rw [hnil]
        simp

/-- Claim C1, counterexample: `PackSegments::backward` allocates
`variable_list grad_inputs(5)` and therefore returns five gradient slots,
not the three slots (one per forward input) the claim states: on a concrete
one-entry gradient list it returns a list of length 5, and 5 is not 3. -/
theorem claim_C1_counterexample :
    (PackSegments.backward ⟨[[1, 2]], 2, 3⟩
        [[[1, 1, 1], [1, 1, 1]]]).map List.length = Except.ok 5
    ∧ (5 : Nat) ≠ 3 := by
  constructor
  · rfl
  · decide

/-- Claim C1, amended: backward returns one gradient list per operator whose
first slot is the (defined) input gradient and whose remaining slots are all
undefined markers; the list has 5 slots for PackSegments (two more than its
3 forward inputs — the engine tolerates trailing undefined slots), 4 for
BatchedUnaryEmbedding (matching [weight, table_offsets, offsets, indices]),
and 5 for IndexSelect (matching [input, indices, consecutive_range_start,
consecutive_range_length, skip_sort]). -/
theorem claim_C1_gradient_arity (pctx : PackSegmentsCtx)
    (g : List (List Int)) (bctx : BatchedUnaryCtx) (bg : List Int)
    (input indices grad : Tensor) (cs cl : Int) (sk : Bool)
    (outs : List Tensor) (ctx : IndexSelectCtx)
    (hc : input.device.isCuda = true) (hd : indices.device = input.device)
    (hg : grad.device = input.device)
    (hfwd : IndexSelectDim0GPUOp.forward input indices cs cl sk
      = Except.ok (outs, ctx)) :
    ((PackSegments.backward pctx [g]).map
        (fun l => ((l.headD none).isSome, l.drop 1))
      = Except.ok (true, [none, none, none, none]))
    ∧ ((LookupFunctionBatchedUnaryEmbeddingOp.backward bctx [bg]).map
        (fun l => ((l.headD none).isSome, l.drop 1))
      = Except.ok (true, [none, none, none]))
    ∧ ((IndexSelectDim0GPUOp.backward ctx [grad]).map
        (fun l => ((l.headD none).isSome, l.drop 1))
      = Except.ok (true, [none, none, none, none])) := by
  refine ⟨?_, ?_, ?_⟩
  · unfold PackSegments.backward
    rw [if_pos (by simp)]
    rfl
  · rfl
  · rw [backward_eval input indices grad cs cl sk outs ctx hc hd hg hfwd]
    rfl

/-- Claim C1 witness: the amended arity statement at concrete inputs. -/
theorem claim_C1_gradient_arity_witness :
    ((PackSegments.backward ⟨[[1, 2]], 2, 3⟩ [[[1, 1, 1], [1, 1, 1]]]).map
        (fun l => ((l.headD none).isSome, l.drop 1))
      = Except.ok (true, [none, none, none, none]))
    ∧ ((LookupFunctionBatchedUnaryEmbeddingOp.backward ⟨[[5], [0, 1], [0, 1], [0]]⟩
          [[3]]).map (fun l => ((l.headD none).isSome, l.drop 1))
      = Except.ok (true, [none, none, none]))
    ∧ ((IndexSelectDim0GPUOp.backward
          ⟨[⟨Device.cuda 0, [2, 0, 2]⟩], 3, 0, 0, true⟩
          [⟨Device.cuda 0, [5, 7, 11]⟩]).map
        (fun l => ((l.headD none).isSome, l.drop 1))
      = Except.ok (true, [none, none, none, none])) :=
  claim_C1_gradient_arity ⟨[[1, 2]], 2, 3⟩ [[1, 1, 1], [1, 1, 1]]
    ⟨[[5], [0, 1], [0, 1], [0]]⟩ [3]
    ⟨Device.cuda 0, [10, 20, 30]⟩ ⟨Device.cuda 0, [2, 0, 2]⟩
    ⟨Device.cuda 0, [5, 7, 11]⟩ 0 0 true
    [⟨Device.cuda 0, [30, 10, 30]⟩] ⟨[⟨Device.cuda 0, [2, 0, 2]⟩], 3, 0, 0, true⟩
    rfl rfl rfl rfl

/-- Claim C2: for IndexSelectOperator, forward with `skip_sort = false`
(sort, then gather through the permutation) and forward with
`skip_sort = true` (gather with the raw indices) return identical output
lists, and the output row `i` of the eager-sort path is
`input[indices[i]]`. -/
theorem claim_C2_sort_transparency (input indices : Tensor) (cs cl : Int)
    (hc : input.device.isCuda = true) (hd : indices.device = input.device)
    (hb : ∀ v ∈ indices.data, 0 ≤ v ∧ v.toNat < input.data.length) :
    ((IndexSelectDim0GPUOp.forward input indices cs cl true).map Prod.fst
      = (IndexSelectDim0GPUOp.forward input indices cs cl false).map Prod.fst)
    ∧ ∀ outs ctx, IndexSelectDim0GPUOp.forward input indices cs cl false
        = Except.ok (outs, ctx) →
      ∀ i, i < indices.data.length →
        (outs.headD undefTensor).data.getD i 0
          = input.data.getD (indices.data.getD i 0).toNat 0 := by
  constructor
  · rw [forward_eval input indices cs cl true hc hd,
      forward_eval input indices cs cl false hc hd]
    rfl
  · intro outs ctx hfwd i hi
    rw [forward_eval input indices cs cl false hc hd] at hfwd
    have houts : outs
        = [⟨input.device, indices.data.map (fun v => input.data.getD v.toNat 0)⟩] := by
      have h2 := congrArg Prod.fst (Except.ok.inj hfwd)
      exact h2.symm
    rw [houts]
    show (indices.data.map (fun v => input.data.getD v.toNat 0)).getD i 0 = _
    rw [List.getD_eq_getElem _ _ (by simpa using hi), List.getElem_map,
      List.getD_eq_getElem _ _ hi]

/-- Claim C2 witness: sort-transparency at concrete inputs. -/
theorem claim_C2_sort_transparency_witness :
    ((IndexSelectDim0GPUOp.forward ⟨Device.cuda 0, [10, 20, 30]⟩
        ⟨Device.cuda 0, [2, 0, 2]⟩ 0 0 true).map Prod.fst
      = (IndexSelectDim0GPUOp.forward ⟨Device.cuda 0, [10, 20, 30]⟩
          ⟨Device.cuda 0, [2, 0, 2]⟩ 0 0 false).map Prod.fst)
    ∧ ∀ outs ctx, IndexSelectDim0GPUOp.forward ⟨Device.cuda 0, [10, 20, 30]⟩
        ⟨Device.cuda 0, [2, 0, 2]⟩ 0 0 false = Except.ok (outs, ctx) →
      ∀ i, i < (⟨Device.cuda 0, [2, 0, 2]⟩ : Tensor).data.length →
        (outs.headD undefTensor).data.getD i 0
          = (⟨Device.cuda 0, [10, 20, 30]⟩ : Tensor).data.getD
              ((⟨Device.cuda 0, [2, 0, 2]⟩ : Tensor).data.getD i 0).toNat 0 :=
  claim_C2_sort_transparency ⟨Device.cuda 0, [10, 20, 30]⟩
    ⟨Device.cuda 0, [2, 0, 2]⟩ 0 0 rfl rfl (by decide)

/-- Claim C4: PackSegments backward accepts a gradient list of size 1 or 2
(failing with InvalidArgument on any other size), a second entry, when
present, is ignored, and BatchedUnaryEmbedding backward accepts exactly
size 1, failing with InvalidArgument otherwise. -/
theorem claim_C4_backward_arity_check (pctx : PackSegmentsCtx)
    (gs : List (List (List Int))) (g g2 : List (List Int))
    (bctx : BatchedUnaryCtx) (gs2 : List (List Int)) :
    ((PackSegments.backward pctx gs = Except.error OpError.invalidArgument)
       ↔ ¬(gs.length = 1 ∨ gs.length = 2))
    ∧ (PackSegments.backward pctx [g, g2] = PackSegments.backward pctx [g])
    ∧ ((LookupFunctionBatchedUnaryEmbeddingOp.backward bctx gs2
         = Except.error OpError.invalidArgument) ↔ gs2.length ≠ 1) := by
  refine ⟨?_, ?_, ?_⟩
  · unfold PackSegments.backward
    by_cases h : gs.length = 2 ∨ gs.length = 1
    · rw [if_pos h]
      constructor
      · intro he; exact Except.noConfusion he
      · intro hneg; exact absurd (Or.symm h) hneg
    · rw [if_neg h]
      constructor
      · intro _ hor; exact h (Or.symm hor)
      · intro _; rfl
  · unfold PackSegments.backward
    rw [if_pos (by simp), if_pos (by simp)]
    rfl
  · match gs2 with
    | [] => simp [LookupFunctionBatchedUnaryEmbeddingOp.backward]
    | [x] => simp [LookupFunctionBatchedUnaryEmbeddingOp.backward]
    | x :: y :: t => simp [LookupFunctionBatchedUnaryEmbeddingOp.backward]

theorem check_cuda_cases (t : Tensor) :
    TENSOR_ON_CUDA_GPU t = none
      ∨ TENSOR_ON_CUDA_GPU t = some OpError.notOnGpu := by
  unfold TENSOR_ON_CUDA_GPU
  by_cases h : t.device.isCuda = true
  · left; rw [if_pos h]
  · right; rw [if_neg h]

theorem check_same_cases (a b : Tensor) :
    TENSORS_ON_SAME_DEVICE a b = none
      ∨ TENSORS_ON_SAME_DEVICE a b = some OpError.deviceMismatch := by
  unfold TENSORS_ON_SAME_DEVICE
  by_cases h : a.device = b.device
  · left; rw [if_pos h]
  · right; rw [if_neg h]

theorem backward_single_not_invalid (ctx : IndexSelectCtx) (g : Tensor) :
    IndexSelectDim0GPUOp.backward ctx [g]
      ≠ Except.error OpError.invalidArgument := by
  intro hcontra
  unfold IndexSelectDim0GPUOp.backward at hcontra
  cases hsk : ctx.skip_indices_sorting_fwd with
  | true =>
      rcases check_cuda_cases g with h1 | h1
      · rcases check_cuda_cases
            (Tensor.sort (ctx.saved_variables.head?.getD undefTensor)).1 with h2 | h2
        · rcases check_cuda_cases
              (Tensor.sort (ctx.saved_variables.head?.getD undefTensor)).2 with h3 | h3
          · rcases check_same_cases g
                (Tensor.sort (ctx.saved_variables.head?.getD undefTensor)).1 with h4 | h4
            · simp [hsk, h1, h2, h3, h4] at hcontra
            · simp [hsk, h1, h2, h3, h4] at hcontra
          · simp [hsk, h1, h2, h3] at hcontra
        · simp [hsk, h1, h2] at hcontra
      · simp [hsk, h1] at hcontra
  | false =>
      rcases check_cuda_cases g with h1 | h1
      · rcases check_cuda_cases
            (ctx.saved_variables.head?.getD undefTensor) with h2 | h2
        · rcases check_cuda_cases
              (ctx.saved_variables[1]?.getD undefTensor) with h3 | h3
          · rcases check_same_cases g
                (ctx.saved_variables.head?.getD undefTensor) with h4 | h4
            · simp [hsk, h1, h2, h3, h4] at hcontra
            · simp [hsk, h1, h2, h3, h4] at hcontra
          · simp [hsk, h1, h2, h3] at hcontra
        · simp [hsk, h1, h2] at hcontra
      · simp [hsk, h1] at hcontra

/-- Claim C10: IndexSelectOperator backward checks the gradient-output
arity: it fails with InvalidArgument exactly when the gradient list does
not have exactly one entry. -/
theorem claim_C10_index_select_backward_arity (ctx : IndexSelectCtx)
    (gs : List Tensor) :
    (IndexSelectDim0GPUOp.backward ctx gs = Except.error OpError.invalidArgument)
      ↔ gs.length ≠ 1 := by
  match gs with
  | [] => simp [IndexSelectDim0GPUOp.backward]
  | [g] =>
      simp only [List.length_singleton, ne_eq, not_true_eq_false, iff_false]
      exact backward_single_not_invalid ctx g
  | g1 :: g2 :: t => simp [IndexSelectDim0GPUOp.backward]

/-- Claim C3: for IndexSelectOperator backward, row `k` of the returned
input gradient is the sum of the gradient-output rows at all positions `i`
with `indices[i] = k` (duplicates accumulate by summation; rows of indices
never selected get an empty sum, i.e. zero). -/
theorem claim_C3_duplicate_accumulation (input indices grad : Tensor)
    (sk : Bool) (outs : List Tensor) (ctx : IndexSelectCtx)
    (res : List (Option Tensor)) (t : Tensor) (k : Nat)
    (hc : input.device.isCuda = true) (hd : indices.device = input.device)
    (hg : grad.device = input.device)
    (hnn : ∀ v ∈ indices.data, 0 ≤ v)
    (hfwd : IndexSelectDim0GPUOp.forward input indices 0 0 sk
      = Except.ok (outs, ctx))
    (hres : IndexSelectDim0GPUOp.backward ctx [grad] = Except.ok res)
    (ht : res.headD none = some t)
    (hk : k < input.data.length) :
    t.data.getD k 0
      = (((idx indices.data).filter (fun p => p.2 == (k : Int))).map
          (fun p => grad.data.getD p.1 0)).sum := by
  rw [backward_eval input indices grad 0 0 sk outs ctx hc hd hg hfwd] at hres
  have hres2 := (Except.ok.inj hres).symm
  rw [hres2] at ht
  have ht2 : t = index_add_with_unique_indices_cuda grad (Tensor.sort indices).1
      (Tensor.sort indices).2 input.data.length 0 0 := by
    have := Option.some.inj ht
    exact this.symm
  rw [ht2, index_add_scatter_eval grad indices input.data.length 0 0
    (by norm_num) k hk]
  have hcongr : ∀ p ∈ idx indices.data,
      (p.2.toNat == k) = (p.2 == (k : Int)) := by
    intro p hp
    have h1 := mem_idx _ p hp
    have h2 : p.2 ∈ indices.data := by
      rw [h1.2, List.getD_eq_getElem _ _ h1.1]
      exact List.getElem_mem _
    have h0 : (0 : Int) ≤ p.2 := hnn _ h2
    apply Bool.eq_iff_iff.mpr
    simp only [beq_iff_eq]
    omega
  rw [List.filter_congr hcongr]

/-- Claim C3 witness: the spec example `indices = [2, 0, 2]` with
`grad_output = [g0, g1, g2] = [5, 7, 11]` gives `grad_input[2] = 5 + 11`. -/
theorem claim_C3_duplicate_accumulation_witness :
    (⟨Device.cuda 0, [7, 0, 16]⟩ : Tensor).data.getD 2 0
      = (((idx (⟨Device.cuda 0, [2, 0, 2]⟩ : Tensor).data).filter
          (fun p => p.2 == ((2 : Nat) : Int))).map
          (fun p => (⟨Device.cuda 0, [5, 7, 11]⟩ : Tensor).data.getD p.1 0)).sum :=
  claim_C3_duplicate_accumulation ⟨Device.cuda 0, [10, 20, 30]⟩
    ⟨Device.cuda 0, [2, 0, 2]⟩ ⟨Device.cuda 0, [5, 7, 11]⟩ true
    [⟨Device.cuda 0, [30, 10, 30]⟩] ⟨[⟨Device.cuda 0, [2, 0, 2]⟩], 3, 0, 0, true⟩
    [some ⟨Device.cuda 0, [7, 0, 16]⟩, none, none, none, none]
    ⟨Device.cuda 0, [7, 0, 16]⟩ 2 rfl rfl rfl (by decide) rfl (by rfl) rfl
    (by decide)

/-- Claim C5: the consecutive-range hints select only the backward
algorithm, never the result: under the caller guarantee that all indices
lie in `[consecutive_range_start, consecutive_range_start +
consecutive_range_length)`, backward from a forward run with any hint
values returns exactly the gradient list of the hint-free
(`start = 0, length = 0`) path. -/
theorem claim_C5_range_hint_invariance (input indices grad : Tensor)
    (cs cl : Int) (sk : Bool) (outs1 : List Tensor) (ctx1 : IndexSelectCtx)
    (outs2 : List Tensor) (ctx2 : IndexSelectCtx)
    (hc : input.device.isCuda = true) (hd : indices.device = input.device)
    (hg : grad.device = input.device)
    (hnn : ∀ v ∈ indices.data, 0 ≤ v)
    (hrange : 0 < cl → ∀ v ∈ indices.data, cs ≤ v ∧ v < cs + cl)
    (hfwd1 : IndexSelectDim0GPUOp.forward input indices cs cl sk
      = Except.ok (outs1, ctx1))
    (hfwd2 : IndexSelectDim0GPUOp.forward input indices 0 0 sk
      = Except.ok (outs2, ctx2)) :
    IndexSelectDim0GPUOp.backward ctx1 [grad]
      = IndexSelectDim0GPUOp.backward ctx2 [grad] := by
  rw [backward_eval input indices grad cs cl sk outs1 ctx1 hc hd hg hfwd1,
    backward_eval input indices grad 0 0 sk outs2 ctx2 hc hd hg hfwd2]
  by_cases hcl : 0 < cl
  · rw [index_add_hint_invariance grad indices input.data.length cs cl hcl
      hnn (hrange hcl)]
  · have heq : index_add_with_unique_indices_cuda grad (Tensor.sort indices).1
        (Tensor.sort indices).2 input.data.length cs cl
        = index_add_with_unique_indices_cuda grad (Tensor.sort indices).1
            (Tensor.sort indices).2 input.data.length 0 0 := by
      apply Tensor.eq_of_parts
      · rw [index_add_device, index_add_device]
      · rw [index_add_scatter_data _ _ _ _ cs cl hcl,
          index_add_scatter_data _ _ _ _ 0 0 (by norm_num)]
    rw [heq]

/-- Claim C5 witness: hint values `start = 2, length = 1` for indices all
equal to 2 give the same backward result as the hint-free path. -/
theorem claim_C5_range_hint_invariance_witness :
    IndexSelectDim0GPUOp.backward
        ⟨[⟨Device.cuda 0, [2, 2]⟩], 3, 2, 1, true⟩ [⟨Device.cuda 0, [5, 7]⟩]
      = IndexSelectDim0GPUOp.backward
          ⟨[⟨Device.cuda 0, [2, 2]⟩], 3, 0, 0, true⟩ [⟨Device.cuda 0, [5, 7]⟩] :=
  claim_C5_range_hint_invariance ⟨Device.cuda 0, [10, 20, 30]⟩
    ⟨Device.cuda 0, [2, 2]⟩ ⟨Device.cuda 0, [5, 7]⟩ 2 1 true
    [⟨Device.cuda 0, [30, 30]⟩] ⟨[⟨Device.cuda 0, [2, 2]⟩], 3, 2, 1, true⟩
    [⟨Device.cuda 0, [30, 30]⟩] ⟨[⟨Device.cuda 0, [2, 2]⟩], 3, 0, 0, true⟩
    rfl rfl rfl (by decide) (by decide) rfl rfl

/-- Claim C6: if forward ran with `skip_sort = true`, backward recomputes
the sorted permutation from the saved raw indices (deterministically, the
model being a pure function), and returns exactly the gradient list of the
eager-sort (`skip_sort = false`) path for the same input, indices and
gradient. -/
theorem claim_C6_deferred_sort_equivalence (input indices grad : Tensor)
    (cs cl : Int) (outs1 : List Tensor) (ctx1 : IndexSelectCtx)
    (outs2 : List Tensor) (ctx2 : IndexSelectCtx)
    (hc : input.device.isCuda = true) (hd : indices.device = input.device)
    (hg : grad.device = input.device)
    (hfwd1 : IndexSelectDim0GPUOp.forward input indices cs cl true
      = Except.ok (outs1, ctx1))
    (hfwd2 : IndexSelectDim0GPUOp.forward input indices cs cl false
      = Except.ok (outs2, ctx2)) :
    IndexSelectDim0GPUOp.backward ctx1 [grad]
      = IndexSelectDim0GPUOp.backward ctx2 [grad] := by
  rw [backward_eval input indices grad cs cl true outs1 ctx1 hc hd hg hfwd1,
    backward_eval input indices grad cs cl false outs2 ctx2 hc hd hg hfwd2]

/-- Claim C6 witness: deferred-sort and eager-sort backward agree on
concrete inputs with duplicate, unsorted indices. -/
theorem claim_C6_deferred_sort_equivalence_witness :
    IndexSelectDim0GPUOp.backward
        ⟨[⟨Device.cuda 0, [2, 0, 2]⟩], 3, 0, 0, true⟩ [⟨Device.cuda 0, [5, 7, 11]⟩]
      = IndexSelectDim0GPUOp.backward
          ⟨[(Tensor.sort ⟨Device.cuda 0, [2, 0, 2]⟩).1,
            (Tensor.sort ⟨Device.cuda 0, [2, 0, 2]⟩).2], 3, 0, 0, false⟩
          [⟨Device.cuda 0, [5, 7, 11]⟩] :=
  claim_C6_deferred_sort_equivalence ⟨Device.cuda 0, [10, 20, 30]⟩
    ⟨Device.cuda 0, [2, 0, 2]⟩ ⟨Device.cuda 0, [5, 7, 11]⟩ 0 0
    [⟨Device.cuda 0, [30, 10, 30]⟩] ⟨[⟨Device.cuda 0, [2, 0, 2]⟩], 3, 0, 0, true⟩
    [⟨Device.cuda 0, [30, 10, 30]⟩]
    ⟨[(Tensor.sort ⟨Device.cuda 0, [2, 0, 2]⟩).1,
      (Tensor.sort ⟨Device.cuda 0, [2, 0, 2]⟩).2], 3, 0, 0, false⟩
    rfl rfl rfl rfl (by rfl)

/-- Claim C7: the first slot of IndexSelectOperator backward always carries
a tensor of exactly the input shape saved during forward (the saved
`input_shape` equals the forward input's row count), however many rows the
indices selected. -/
theorem claim_C7_backward_shape_invariant (input indices grad : Tensor)
    (cs cl : Int) (sk : Bool) (outs : List Tensor) (ctx : IndexSelectCtx)
    (res : List (Option Tensor)) (t : Tensor)
    (hc : input.device.isCuda = true) (hd : indices.device = input.device)
    (hg : grad.device = input.device)
    (hfwd : IndexSelectDim0GPUOp.forward input indices cs cl sk
      = Except.ok (outs, ctx))
    (hres : IndexSelectDim0GPUOp.backward ctx [grad] = Except.ok res)
    (ht : res.headD none = some t) :
    t.data.length = ctx.input_shape ∧ ctx.input_shape = input.data.length := by
  have hshape : ctx.input_shape = input.data.length := by
    rw [forward_eval input indices cs cl sk hc hd] at hfwd
    have h2 := congrArg Prod.snd (Except.ok.inj hfwd)
    cases sk with
    | true => exact (congrArg IndexSelectCtx.input_shape h2).symm
    | false => exact (congrArg IndexSelectCtx.input_shape h2).symm
  rw [backward_eval input indices grad cs cl sk outs ctx hc hd hg hfwd] at hres
  have hres2 := (Except.ok.inj hres).symm
  rw [hres2] at ht
  have ht2 : t = index_add_with_unique_indices_cuda grad (Tensor.sort indices).1
      (Tensor.sort indices).2 input.data.length cs cl :=
    (Option.some.inj ht).symm
  refine ⟨?_, hshape⟩
  rw [ht2, index_add_length, hshape]

/-- Claim C7 witness: the shape invariant at concrete inputs where indices
select a single duplicated row of a three-row input. -/
theorem claim_C7_backward_shape_invariant_witness :
    (⟨Device.cuda 0, [0, 0, 12]⟩ : Tensor).data.length
        = (⟨[⟨Device.cuda 0, [2, 2]⟩], 3, 0, 0, true⟩ : IndexSelectCtx).input_shape
    ∧ (⟨[⟨Device.cuda 0, [2, 2]⟩], 3, 0, 0, true⟩ : IndexSelectCtx).input_shape
        = (⟨Device.cuda 0, [10, 20, 30]⟩ : Tensor).data.length :=
  claim_C7_backward_shape_invariant ⟨Device.cuda 0, [10, 20, 30]⟩
    ⟨Device.cuda 0, [2, 2]⟩ ⟨Device.cuda 0, [5, 7]⟩ 0 0 true
    [⟨Device.cuda 0, [30, 30]⟩] ⟨[⟨Device.cuda 0, [2, 2]⟩], 3, 0, 0, true⟩
    [some ⟨Device.cuda 0, [0, 0, 12]⟩, none, none, none, none]
    ⟨Device.cuda 0, [0, 0, 12]⟩ rfl rfl rfl rfl (by rfl) rfl

theorem forward_mismatch (input indices : Tensor) (cs cl : Int) (sk : Bool)
    (hci : input.device.isCuda = true) (hcj : indices.device.isCuda = true)
    (hne : input.device ≠ indices.device) :
    IndexSelectDim0GPUOp.forward input indices cs cl sk
      = Except.error OpError.deviceMismatch := by
  unfold IndexSelectDim0GPUOp.forward TENSOR_ON_CUDA_GPU TENSORS_ON_SAME_DEVICE
  simp [hci, hcj, hne]

theorem backward_mismatch (input indices grad : Tensor) (cs cl : Int)
    (sk : Bool) (outs : List Tensor) (ctx : IndexSelectCtx)
    (hc : input.device.isCuda = true) (hd : indices.device = input.device)
    (hcg : grad.device.isCuda = true) (hne : grad.device ≠ input.device)
    (hfwd : IndexSelectDim0GPUOp.forward input indices cs cl sk
      = Except.ok (outs, ctx)) :
    IndexSelectDim0GPUOp.backward ctx [grad]
      = Except.error OpError.deviceMismatch := by
  rw [forward_eval input indices cs cl sk hc hd] at hfwd
  have hpair := Except.ok.inj hfwd
  have hic : indices.device.isCuda = true := by rw [hd]; exact hc
  have hctx : ctx = if sk then
      (⟨[indices], input.data.length, cs, cl, sk⟩ : IndexSelectCtx)
    else
      ⟨[(Tensor.sort indices).1, (Tensor.sort indices).2],
       input.data.length, cs, cl, sk⟩ := by
    have := congrArg Prod.snd hpair
    simpa using this.symm
  have hne2 : ¬ grad.device = indices.device := by
    intro he; exact hne (he.trans hd)
  cases sk with
  | true =>
      rw [if_pos rfl] at hctx
      subst hctx
      simp only [IndexSelectDim0GPUOp.backward, TENSOR_ON_CUDA_GPU,
        TENSORS_ON_SAME_DEVICE, List.headD, sort_fst_device, sort_snd_device,
        hcg, hic, hd, if_true, if_pos rfl]
      simp [hc, hne2, hne, sort_fst_device]
  | false =>
      rw [if_neg (by simp)] at hctx
      subst hctx
      simp only [IndexSelectDim0GPUOp.backward, TENSOR_ON_CUDA_GPU,
        TENSORS_ON_SAME_DEVICE, List.headD, List.drop, sort_fst_device,
        sort_snd_device, hcg, hic, hd, if_true, if_pos rfl]
      simp [hc, hne2, hne, sort_fst_device, sort_snd_device, hd]

/-- Claim C8: with all participating tensors CUDA-resident, forward fails
with DeviceMismatch exactly when `input` and `indices` are on different
devices, and backward (for a context produced by a successful forward)
fails with DeviceMismatch exactly when the gradient is on a different device
than the saved (sorted) indices; matching devices never produce that
failure. -/
theorem claim_C8_device_mismatch (input indices grad : Tensor) (cs cl : Int)
    (sk : Bool) (hci : input.device.isCuda = true)
    (hcj : indices.device.isCuda = true) (hcg : grad.device.isCuda = true) :
    ((IndexSelectDim0GPUOp.forward input indices cs cl sk
        = Except.error OpError.deviceMismatch)
      ↔ input.device ≠ indices.device)
    ∧ ∀ outs ctx, IndexSelectDim0GPUOp.forward input indices cs cl sk
        = Except.ok (outs, ctx) →
      ((IndexSelectDim0GPUOp.backward ctx [grad]
          = Except.error OpError.deviceMismatch)
        ↔ grad.device ≠ indices.device) := by
  constructor
  · constructor
    · intro herr heq
      rw [forward_eval input indices cs cl sk hci heq.symm] at herr
      exact Except.noConfusion herr
    · intro hne
      exact forward_mismatch input indices cs cl sk hci hcj hne
  · intro outs ctx hfwd
    have hd : indices.device = input.device := by
      by_contra hne
      rw [forward_mismatch input indices cs cl sk hci hcj
        (fun he => hne he.symm)] at hfwd
      exact Except.noConfusion hfwd
    constructor
    · intro herr heq
      rw [backward_eval input indices grad cs cl sk outs ctx hci hd
        (heq.trans hd) hfwd] at herr
      exact Except.noConfusion herr
    · intro hne
      exact backward_mismatch input indices grad cs cl sk outs ctx hci hd hcg
        (fun he => hne (he.trans hd.symm)) hfwd

/-- Claim C8 witness: concrete CUDA tensors; same devices in forward (no
DeviceMismatch), and a gradient on a second device making backward fail
with DeviceMismatch. -/
theorem claim_C8_device_mismatch_witness :
    (((IndexSelectDim0GPUOp.forward ⟨Device.cuda 0, [10, 20]⟩
         ⟨Device.cuda 0, [1]⟩ 0 0 true
        = Except.error OpError.deviceMismatch)
      ↔ (⟨Device.cuda 0, [10, 20]⟩ : Tensor).device
          ≠ (⟨Device.cuda 0, [1]⟩ : Tensor).device)
    ∧ ∀ outs ctx, IndexSelectDim0GPUOp.forward ⟨Device.cuda 0, [10, 20]⟩
        ⟨Device.cuda 0, [1]⟩ 0 0 true = Except.ok (outs, ctx) →
      ((IndexSelectDim0GPUOp.backward ctx [⟨Device.cuda 1, [3]⟩]
          = Except.error OpError.deviceMismatch)
        ↔ (⟨Device.cuda 1, [3]⟩ : Tensor).device
            ≠ (⟨Device.cuda 0, [1]⟩ : Tensor).device)) :=
  claim_C8_device_mismatch ⟨Device.cuda 0, [10, 20]⟩ ⟨Device.cuda 0, [1]⟩
    ⟨Device.cuda 1, [3]⟩ 0 0 true rfl rfl rfl

/-- Claim C9: in the wrapper `index_select_dim0_gpu`, absent
`consecutive_range_start` / `consecutive_range_length` default to 0 and an
absent `skip_indices_sorting_fwd` defaults to false; the flag handed to the
operator is the user flag AND-ed with inference mode being disabled, so
with inference mode enabled the call behaves exactly like a
`skip_indices_sorting_fwd = false` (sorting-path) call. -/
theorem claim_C9_wrapper_defaults (input indices : Tensor)
    (cs cl : Option Int) (sk : Option Bool) (im : Bool) :
    (index_select_dim0_gpu input indices none none none im
       = index_select_dim0_gpu input indices (some 0) (some 0) (some false) im)
    ∧ (index_select_dim0_gpu input indices cs cl sk true
       = index_select_dim0_gpu input indices cs cl (some false) true)
    ∧ (index_select_dim0_gpu input indices cs cl sk im
       = (IndexSelectDim0GPUOp.forward input indices (cs.getD 0) (cl.getD 0)
           ((sk.getD false) && !im)).map
             (fun r => (r.1.headD undefTensor, r.2))) := by
  refine ⟨?_, ?_, ?_⟩
  · rfl
  · unfold index_select_dim0_gpu
    cases sk with
    | none => rfl
    | some b => simp
  · unfold index_select_dim0_gpu
    cases sk <;> cases cs <;> cases cl <;> rfl
